import Mathlib

/-!
Shallow embedding of `student.py` (a Tkinter + SQLite student/GPA CRUD
application).  The SQLite database is modelled as explicit lists of rows with
autoincrement counters; SQL `REAL` values are modelled as exact rationals
(`ℚ`), with the non-finite Python floats `inf`, `-inf`, `nan` represented
explicitly where the GPA validation path can produce them.  Each Python/SQL
operation of the source becomes a Lean function on the database state.
-/

namespace StudentSystem

/-! ### Model of Python `str.strip()` -/

/-- The whitespace characters removed by Python `str.strip()` (ASCII part). -/
def pySpace (c : Char) : Bool :=
  c == ' ' || c == '\t' || c == '\n' || c == '\x0d' || c == '\x0b' || c == '\x0c'

/-- Model of Python `str.strip()`: drop whitespace from both ends. -/
def pyStrip (s : String) : String :=
  ⟨((s.data.dropWhile pySpace).reverse.dropWhile pySpace).reverse⟩

/-! ### Model of Python `float(str)` -/

def isAsciiDigit (c : Char) : Bool := '0' ≤ c && c ≤ '9'

def asciiLower (c : Char) : Char :=
  if 'A' ≤ c && c ≤ 'Z' then Char.ofNat (c.toNat + 32) else c

/-- Consume a maximal run `digit (('_' digit) | digit)*` (Python numeric
literals allow single underscores between digits).  Returns the digits with
underscores removed, and the unconsumed rest. -/
def digitsU : List Char → List Char × List Char
  | [] => ([], [])
  | [c] => if isAsciiDigit c then ([c], []) else ([], [c])
  | c :: d :: cs =>
    if isAsciiDigit c then
      if d = '_' then
        match cs with
        | e :: es =>
          if isAsciiDigit e then
            let p := digitsU (e :: es)
            (c :: p.1, p.2)
          else ([c], d :: e :: es)
        | [] => ([c], [d])
      else
        let p := digitsU (d :: cs)
        (c :: p.1, p.2)
    else ([], c :: d :: cs)

def natOfDigits (l : List Char) : Nat :=
  l.foldl (fun n c => n * 10 + (c.toNat - '0'.toNat)) 0

/-- Parse the mantissa `digits [. digits]` (at least one digit overall).
Returns the mantissa digits as a natural number `n` together with the number
`k` of fractional digits: the mantissa's value is `n / 10^k`. -/
def parseMantissa (l : List Char) : Option (Nat × Nat × List Char) :=
  let ip := digitsU l
  match ip.2 with
  | '.' :: r2 =>
    let fp := digitsU r2
    if ip.1.isEmpty && fp.1.isEmpty then none
    else some (natOfDigits (ip.1 ++ fp.1), fp.1.length, fp.2)
  | r => if ip.1.isEmpty then none else some (natOfDigits ip.1, 0, r)

def parseExpDigits (neg : Bool) (l : List Char) : Option (Int × List Char) :=
  let p := digitsU l
  if p.1.isEmpty then none
  else some (if neg then -(natOfDigits p.1 : Int) else (natOfDigits p.1 : Int), p.2)

/-- Parse an exponent part `(e|E) [+|-] digits`. -/
def parseExponent : List Char → Option (Int × List Char)
  | c :: r =>
    if c == 'e' || c == 'E' then
      match r with
      | '+' :: r2 => parseExpDigits false r2
      | '-' :: r2 => parseExpDigits true r2
      | _ => parseExpDigits false r
    else none
  | [] => none

/-- The exact value `(n / 10^k) * 10^e` of a decimal literal with mantissa
digits `n`, `k` fractional digits and exponent `e`. -/
def decValue (n : Nat) (k : Nat) (e : Int) : ℚ :=
  if 0 ≤ e then Rat.divInt ((n : Int) * (10 : Int) ^ e.toNat) ((10 : Int) ^ k)
  else Rat.divInt (n : Int) ((10 : Int) ^ (k + (-e).toNat))

/-- Parse an unsigned decimal float literal; the whole input must be consumed.
The numeric value is kept exact in `ℚ` (the rounding of a decimal literal to
the nearest IEEE double is below this model's abstraction level). -/
def parseDec (l : List Char) : Option ℚ :=
  match parseMantissa l with
  | none => none
  | some (n, k, []) => some (decValue n k 0)
  | some (n, k, r) =>
    match parseExponent r with
    | some (e, []) => some (decValue n k e)
    | _ => none

/-- The values Python `float()` can return: a finite value, the two
infinities, or NaN. -/
inductive PyFloat where
  | num (q : ℚ)
  | pinf
  | ninf
  | nan
deriving DecidableEq

def pyNeg : PyFloat → PyFloat
  | .num q => .num (-q)
  | .pinf => .ninf
  | .ninf => .pinf
  | .nan => .nan

def lowerEq (l : List Char) (w : String) : Bool :=
  l.map asciiLower == w.data

def parseUnsigned (l : List Char) : Option PyFloat :=
  if lowerEq l "inf" || lowerEq l "infinity" then some .pinf
  else if lowerEq l "nan" then some .nan
  else (parseDec l).map .num

/-- Model of Python `float(s)`: strip whitespace, optional sign, then either
`inf`/`infinity`/`nan` (case-insensitive) or a decimal literal.  `none` models
`ValueError`. -/
def pyFloat? (s : String) : Option PyFloat :=
  match (pyStrip s).data with
  | '+' :: r => parseUnsigned r
  | '-' :: r => (parseUnsigned r).map pyNeg
  | l => parseUnsigned l

/-- IEEE `<` on the modelled floats: every comparison with NaN is false. -/
def pyLt : PyFloat → PyFloat → Bool
  | .nan, _ => false
  | _, .nan => false
  | .ninf, .ninf => false
  | .ninf, _ => true
  | _, .ninf => false
  | .pinf, _ => false
  | _, .pinf => true
  | .num a, .num b => decide (a < b)

/-! ### Model of SQLite `LIKE`

The search box builds the pattern `f"%{q.strip()}%"`.  SQLite `LIKE` treats
`%` as "any sequence of characters", `_` as "any single character", and
compares other characters case-insensitively on ASCII. -/

def likeMatch : List Char → List Char → Bool
  | [], s => s.isEmpty
  | p :: ps, s =>
    if p = '%' then
      likeMatch ps s ||
        (match s with
         | [] => false
         | _ :: cs => likeMatch (p :: ps) cs)
    else
      match s with
      | [] => false
      | c :: cs =>
        if p = '_' then likeMatch ps cs
        else (asciiLower p == asciiLower c) && likeMatch ps cs
termination_by p s => (p.length, s.length)

/-- `name LIKE '%q%'` as executed by the search query. -/
def likeSub (q : String) (s : String) : Bool :=
  likeMatch ('%' :: (q.data ++ ['%'])) s.data

/-! ### The database state (`StudentDB._init_schema`)

Two tables with `INTEGER PRIMARY KEY AUTOINCREMENT` surrogate keys, a
`UNIQUE` constraint on `students.student_id`, a `UNIQUE(student_id,
term_name)` constraint on `terms`, and `FOREIGN KEY ... ON DELETE CASCADE`
from `terms` to `students` (with `PRAGMA foreign_keys = ON`). -/

structure StudentRow where
  id : Nat
  student_id : String
  name : String
  address : String
  class_name : String
deriving DecidableEq

structure TermRow where
  id : Nat
  student_id : Nat
  term_name : String
  gpa : ℚ
deriving DecidableEq

structure DB where
  students : List StudentRow
  terms : List TermRow
  nextStudentId : Nat
  nextTermId : Nat
deriving DecidableEq

def emptyDB : DB := ⟨[], [], 1, 1⟩

/-- `sqlite3.IntegrityError`: which constraint failed. -/
inductive DBErr where
  | duplicateKey
  | foreignKey
  | notNull
deriving DecidableEq

/-! ### `StudentDB` operations -/

/-- `INSERT INTO students (student_id, name, address, class_name)` with all
four arguments passed through `.strip()`; the `UNIQUE` constraint on
`student_id` makes the insert fail when the (stripped) external id is
already present. -/
def add_student (db : DB) (sid nm ad cl : String) : Except DBErr DB :=
  let sid := pyStrip sid
  if db.students.any (fun s => s.student_id == sid) then .error .duplicateKey
  else .ok { db with
    students := db.students ++
      [⟨db.nextStudentId, sid, pyStrip nm, pyStrip ad, pyStrip cl⟩],
    nextStudentId := db.nextStudentId + 1 }

/-- `DELETE FROM students WHERE id = ?`; the `ON DELETE CASCADE` foreign key
also removes every term row owned by the deleted student. -/
def delete_student (db : DB) (r : Nat) : DB :=
  { db with
    students := db.students.filter (fun s => s.id != r),
    terms := db.terms.filter (fun t => t.student_id != r) }

/-- `ORDER BY name` under SQLite's default `BINARY` collation: bytewise
UTF-8 comparison, i.e. lexicographic comparison of the character lists. -/
def sortByName (l : List StudentRow) : List StudentRow :=
  l.mergeSort (fun a b => a.name.data ≤ b.name.data)

/-- `SELECT ... FROM students WHERE class_name = ? ORDER BY name`. -/
def list_students_by_class (db : DB) (cl : String) : List StudentRow :=
  sortByName (db.students.filter (fun s => s.class_name == cl))

/-- `SELECT ... WHERE class_name = ? AND (name LIKE '%q%' OR student_id LIKE
'%q%') ORDER BY name`, with `q` stripped when the pattern is built. -/
def search_students_by_class_like (db : DB) (cl : String) (q : String) : List StudentRow :=
  sortByName (db.students.filter
    (fun s => s.class_name == cl &&
      (likeSub (pyStrip q) s.name || likeSub (pyStrip q) s.student_id)))

/-- `SELECT ... FROM students WHERE id = ?` followed by `fetchone()`. -/
def get_student (db : DB) (r : Nat) : Option StudentRow :=
  db.students.find? (fun s => s.id == r)

/-- `INSERT INTO terms (student_id, term_name, gpa)` with `term_name`
stripped.  With `PRAGMA foreign_keys = ON` the insert fails when the student
row id does not exist, and the `UNIQUE(student_id, term_name)` constraint
makes it fail when the (student, stripped term name) pair is already
present. -/
def add_term_grade (db : DB) (r : Nat) (tn : String) (g : ℚ) : Except DBErr DB :=
  let tn := pyStrip tn
  if !(db.students.any (fun s => s.id == r)) then .error .foreignKey
  else if db.terms.any (fun t => t.student_id == r && t.term_name == tn) then
    .error .duplicateKey
  else .ok { db with
    terms := db.terms ++ [⟨db.nextTermId, r, tn, g⟩],
    nextTermId := db.nextTermId + 1 }

def sortByRowId (l : List TermRow) : List TermRow :=
  l.mergeSort (fun a b => a.id ≤ b.id)

/-- `SELECT term_name, gpa FROM terms WHERE student_id = ? ORDER BY id`. -/
def list_terms_for_student (db : DB) (r : Nat) : List (String × ℚ) :=
  (sortByRowId (db.terms.filter (fun t => t.student_id == r))).map
    (fun t => (t.term_name, t.gpa))

/-- `DELETE FROM terms WHERE student_id = ? AND term_name = ?`. -/
def delete_term (db : DB) (r : Nat) (tn : String) : DB :=
  { db with
    terms := db.terms.filter (fun t => !(t.student_id == r && t.term_name == tn)) }

/-! ### `class_stats` -/

structure StatRow where
  id : Nat
  name : String
  avg_gpa : Option ℚ
  term_count : Nat
deriving DecidableEq

structure Overall where
  count_students : Nat
  count_with_terms : Nat
  avg_gpa : Option ℚ
  min_gpa : Option ℚ
  max_gpa : Option ℚ
deriving DecidableEq

/-- Python `min` over a list, `none` on the empty list. -/
def listMin (l : List ℚ) : Option ℚ :=
  match l with
  | [] => none
  | x :: xs => some (xs.foldl min x)

/-- Python `max` over a list, `none` on the empty list. -/
def listMax (l : List ℚ) : Option ℚ :=
  match l with
  | [] => none
  | x :: xs => some (xs.foldl max x)

/-- The GPAs of the terms joined to one student row (`LEFT JOIN terms t ON
t.student_id = s.id`, restricted to that student's group). -/
def termGpas (db : DB) (r : Nat) : List ℚ :=
  (db.terms.filter (fun t => t.student_id == r)).map (fun t => t.gpa)

/-- One row of the grouped query: `AVG(t.gpa)` is `NULL` for a student with
no terms (the `LEFT JOIN` contributes only `NULL`s), and `COUNT(t.id)` counts
the non-`NULL` joined term rows. -/
def statRowFor (db : DB) (s : StudentRow) : StatRow :=
  let gs := termGpas db s.id
  { id := s.id, name := s.name,
    avg_gpa := if gs.length = 0 then none else some (gs.sum / (gs.length : ℚ)),
    term_count := gs.length }

/-- `StudentDB.class_stats`: the grouped per-student query (`GROUP BY s.id
ORDER BY s.name`) and the Python-side aggregates over the rows whose average
is not `None`. -/
def class_stats (db : DB) (cl : String) : List StatRow × Overall :=
  let rows := (sortByName (db.students.filter (fun s => s.class_name == cl))).map
    (statRowFor db)
  let gpas := rows.filterMap (fun r => r.avg_gpa)
  (rows,
   { count_students := rows.length,
     count_with_terms := gpas.length,
     avg_gpa := if gpas.length = 0 then none else some (gpas.sum / (gpas.length : ℚ)),
     min_gpa := listMin gpas,
     max_gpa := listMax gpas })

/-! ### Presentation layer: `StudentSystemApp` handlers -/

/-- The outcomes of the `_add_term` handler, one per dialogue/branch of the
source.  `duplicateDialog` is the `except sqlite3.IntegrityError` branch. -/
inductive TermMsg where
  | okAdded
  | selectStudent
  | requiredFields
  | notANumber
  | outOfRange
  | duplicateDialog
deriving DecidableEq

/-- `StudentSystemApp._add_term`: requires a selected student and non-empty
stripped term/GPA strings; parses the GPA with `float(...)` (`ValueError` →
"GPA must be a number"); rejects when `gpa < 0.0 or gpa > 4.0` (an IEEE
comparison, so NaN passes); then calls `StudentDB.add_term_grade`.  A NaN
that reaches the insert is stored by SQLite as `NULL`, so the `NOT NULL`
constraint on `terms.gpa` raises `sqlite3.IntegrityError`, which the handler
reports through the duplicate-term dialogue. -/
def appAddTerm (db : DB) (sel : Option Nat) (termStr gpaStr : String) : DB × TermMsg :=
  match sel with
  | none => (db, .selectStudent)
  | some r =>
    let tn := pyStrip termStr
    let gs := pyStrip gpaStr
    if tn.data.isEmpty || gs.data.isEmpty then (db, .requiredFields)
    else
      match pyFloat? gs with
      | none => (db, .notANumber)
      | some v =>
        if pyLt v (.num 0) || pyLt (.num 4) v then (db, .outOfRange)
        else
          match v with
          | .num q =>
            match add_term_grade db r tn q with
            | .ok db' => (db', .okAdded)
            | .error _ => (db, .duplicateDialog)
          | _ => (db, .duplicateDialog)

/-- Whether `_add_term` reaches the `db.add_term_grade` store call: the
selection and non-emptiness checks passed, the GPA string parsed, and the
range check `gpa < 0.0 or gpa > 4.0` did not fire. -/
def gpaReachesStore (gpaStr : String) : Bool :=
  match pyFloat? (pyStrip gpaStr) with
  | none => false
  | some v => !(pyLt v (.num 0) || pyLt (.num 4) v)

/-- Outcomes of the Add Student dialogue handler (`on_add`). -/
inductive StudentMsg where
  | okAdded
  | requiredFields
  | duplicateDialog
deriving DecidableEq

/-- `on_add` inside `StudentSystemApp._open_add_student`: strips the four
fields, requires Student ID, Name and Class to be non-empty, then calls
`StudentDB.add_student`; on `sqlite3.IntegrityError` it shows the duplicate
dialogue and leaves the database untouched. -/
def appAddStudent (db : DB) (sidStr nmStr adStr clStr : String) : DB × StudentMsg :=
  let sid := pyStrip sidStr
  let nm := pyStrip nmStr
  let ad := pyStrip adStr
  let cl := pyStrip clStr
  if sid.data.isEmpty || nm.data.isEmpty || cl.data.isEmpty then (db, .requiredFields)
  else
    match add_student db sid nm ad cl with
    | .ok db' => (db', .okAdded)
    | .error _ => (db, .duplicateDialog)

/-! ### Chart renderer (`_plot_student` / `_plot_empty`) -/

/-- The decorations and data drawn on the matplotlib axes by one redraw. -/
structure Chart where
  title : String
  xlabel : String
  ylabel : String
  ylo : ℚ
  yhi : ℚ
  series : Option (List ℚ)
  xticklabels : List String
  meanLine : Option ℚ
  meanText : Option ℚ
deriving DecidableEq

/-- `StudentSystemApp._plot_student`: clear the axes, reset title, labels and
the fixed `set_ylim(0, 4)`; with no terms draw nothing further; otherwise
plot the GPA values in the order returned by `list_terms_for_student`, set
the tick labels to the term names in the same order, and draw `axhline` at
the arithmetic mean of the values with an `Avg:` text annotation. -/
def plot_student (db : DB) (r : Nat) : Chart :=
  let terms := list_terms_for_student db r
  if terms.isEmpty then
    { title := "Term GPA Trend", xlabel := "Term", ylabel := "GPA",
      ylo := 0, yhi := 4, series := none, xticklabels := [],
      meanLine := none, meanText := none }
  else
    let ys := terms.map (fun t => t.2)
    let avg := ys.sum / (ys.length : ℚ)
    { title := "Term GPA Trend", xlabel := "Term", ylabel := "GPA",
      ylo := 0, yhi := 4, series := some ys,
      xticklabels := terms.map (fun t => t.1),
      meanLine := some avg, meanText := some avg }

/-! ### Concrete scenario databases -/

/-- Run a sequence of store operations the way the application does: an
operation that fails leaves the database untouched. -/
def seedDB (steps : List (DB → Except DBErr DB)) : DB :=
  steps.foldl (fun db f => match f db with | .ok d => d | .error _ => db) emptyDB

/-- Class "A" with Alice (one term, GPA 3.0), Bob (one term, GPA 4.0) and
Cara (no terms). -/
def dbClassA : DB := seedDB [
  (add_student · "S1" "Alice" "" "A"),
  (add_student · "S2" "Bob" "" "A"),
  (add_student · "S3" "Cara" "" "A"),
  (add_term_grade · 1 "T1" 3),
  (add_term_grade · 2 "T1" 4)]

/-- One student with terms added in the order Fall (3.0), Spring (3.8). -/
def dbTrend : DB := seedDB [
  (add_student · "S1" "Dana" "" "B"),
  (add_term_grade · 1 "Fall" 3),
  (add_term_grade · 1 "Spring" (Rat.divInt 19 5))]

/-- One student with terms added in the order Spring (3.8), Fall (3.0):
insertion order here disagrees with the alphabetical order of the term
names. -/
def dbTrendRev : DB := seedDB [
  (add_student · "S1" "Dana" "" "B"),
  (add_term_grade · 1 "Spring" (Rat.divInt 19 5)),
  (add_term_grade · 1 "Fall" 3)]

/-- Case-insensitive substring containment, the relation the spec claims the
search implements: the lowercased query occurs inside the lowercased text. -/
def ciContains (q s : String) : Prop :=
  (q.data.map asciiLower) <:+: (s.data.map asciiLower)

instance (q s : String) : Decidable (ciContains q s) :=
  inferInstanceAs (Decidable ((q.data.map asciiLower) <:+: (s.data.map asciiLower)))

/-- The foreign-key invariant the schema enforces on every reachable store
state: every term row is owned by an existing student row. -/
def fkInv (db : DB) : Prop :=
  ∀ t ∈ db.terms, ∃ s ∈ db.students, s.id = t.student_id

instance (db : DB) : Decidable (fkInv db) :=
  inferInstanceAs (Decidable (∀ t ∈ db.terms, ∃ s ∈ db.students, s.id = t.student_id))

/-- `dbClassA` after successfully adding a term for Cara (row id 3). -/
def dbClassACara : DB :=
  match add_term_grade dbClassA 3 "T1" 2 with
  | .ok d => d
  | .error _ => dbClassA

/-- The store after adding one student with untrimmed field strings. -/
def dbTrim : DB :=
  match add_student emptyDB " S1 " " Alice " " addr " " A " with
  | .ok d => d
  | .error _ => emptyDB

/-- `dbTrim` after adding one term with an untrimmed term name. -/
def dbTrim2 : DB :=
  match add_term_grade dbTrim 1 " Fall " 3 with
  | .ok d => d
  | .error _ => dbTrim

/-! ## Lemmas about the sorting model of `ORDER BY` -/

theorem sortByName_of_sorted {l : List StudentRow}
    (h : l.Pairwise (fun a b => a.name.data ≤ b.name.data)) : sortByName l = l :=
  List.mergeSort_of_sorted (h.imp fun hab => decide_eq_true hab)

theorem mem_sortByName {a : StudentRow} {l : List StudentRow} :
    a ∈ sortByName l ↔ a ∈ l :=
  List.mem_mergeSort

theorem sortByName_sorted (l : List StudentRow) :
    (sortByName l).Pairwise (fun a b => a.name.data ≤ b.name.data) := by
  have h := @List.sorted_mergeSort StudentRow
    (fun a b => decide (a.name.data ≤ b.name.data))
    (fun a b c hab hbc =>
      decide_eq_true (le_trans (of_decide_eq_true hab) (of_decide_eq_true hbc)))
    (fun a b => by
      rcases le_total a.name.data b.name.data with h | h <;> simp [h]) l
  exact h.imp fun hab => of_decide_eq_true hab

theorem sortByRowId_of_sorted {l : List TermRow}
    (h : l.Pairwise (fun a b => a.id ≤ b.id)) : sortByRowId l = l :=
  List.mergeSort_of_sorted (h.imp fun hab => decide_eq_true hab)

theorem mem_sortByRowId {a : TermRow} {l : List TermRow} :
    a ∈ sortByRowId l ↔ a ∈ l :=
  List.mem_mergeSort

/-! ## Lemmas about the Python `min`/`max` folds -/

theorem foldl_min_mem (l : List ℚ) (a : ℚ) : l.foldl min a ∈ a :: l := by
  induction l generalizing a with
  | nil => simp
  | cons b bs ih =>
    have h := ih (min a b)
    simp only [List.foldl_cons]
    rcases List.mem_cons.mp h with h' | h'
    · rcases min_choice a b with hc | hc
      · rw [h', hc]; exact List.mem_cons_self _ _
      · rw [h', hc]; exact List.mem_cons_of_mem _ (List.mem_cons_self _ _)
    · exact List.mem_cons_of_mem _ (List.mem_cons_of_mem _ h')

theorem foldl_min_le (l : List ℚ) (a : ℚ) : ∀ x ∈ a :: l, l.foldl min a ≤ x := by
  induction l generalizing a with
  | nil =>
    intro x hx
    simp only [List.mem_singleton] at hx
    simp [hx]
  | cons b bs ih =>
    intro x hx
    have h := ih (min a b)
    simp only [List.foldl_cons]
    rcases List.mem_cons.mp hx with rfl | hx'
    · exact le_trans (h _ (List.mem_cons_self _ _)) (min_le_left _ _)
    · rcases List.mem_cons.mp hx' with rfl | hx''
      · exact le_trans (h _ (List.mem_cons_self _ _)) (min_le_right _ _)
      · exact h _ (List.mem_cons_of_mem _ hx'')

theorem listMin_eq_some_iff {l : List ℚ} {m : ℚ} :
    listMin l = some m ↔ m ∈ l ∧ ∀ x ∈ l, m ≤ x := by
  cases l with
  | nil => simp [listMin]
  | cons a as =>
    simp only [listMin, Option.some.injEq]
    constructor
    · rintro rfl
      exact ⟨foldl_min_mem as a, foldl_min_le as a⟩
    · rintro ⟨hm, hle⟩
      exact le_antisymm (foldl_min_le as a m hm) (hle _ (foldl_min_mem as a))

theorem foldl_max_mem (l : List ℚ) (a : ℚ) : l.foldl max a ∈ a :: l := by
  induction l generalizing a with
  | nil => simp
  | cons b bs ih =>
    have h := ih (max a b)
    simp only [List.foldl_cons]
    rcases List.mem_cons.mp h with h' | h'
    · rcases max_choice a b with hc | hc
      · rw [h', hc]; exact List.mem_cons_self _ _
      · rw [h', hc]; exact List.mem_cons_of_mem _ (List.mem_cons_self _ _)
    · exact List.mem_cons_of_mem _ (List.mem_cons_of_mem _ h')

theorem le_foldl_max (l : List ℚ) (a : ℚ) : ∀ x ∈ a :: l, x ≤ l.foldl max a := by
  induction l generalizing a with
  | nil =>
    intro x hx
    simp only [List.mem_singleton] at hx
    simp [hx]
  | cons b bs ih =>
    intro x hx
    have h := ih (max a b)
    simp only [List.foldl_cons]
    rcases List.mem_cons.mp hx with rfl | hx'
    · exact le_trans (le_max_left _ _) (h _ (List.mem_cons_self _ _))
    · rcases List.mem_cons.mp hx' with rfl | hx''
      · exact le_trans (le_max_right _ _) (h _ (List.mem_cons_self _ _))
      · exact h _ (List.mem_cons_of_mem _ hx'')

theorem listMax_eq_some_iff {l : List ℚ} {m : ℚ} :
    listMax l = some m ↔ m ∈ l ∧ ∀ x ∈ l, x ≤ m := by
  cases l with
  | nil => simp [listMax]
  | cons a as =>
    simp only [listMax, Option.some.injEq]
    constructor
    · rintro rfl
      exact ⟨foldl_max_mem as a, le_foldl_max as a⟩
    · rintro ⟨hm, hle⟩
      exact le_antisymm (hle _ (foldl_max_mem as a)) (le_foldl_max as a m hm)

theorem length_filterMap_avg (l : List StatRow) :
    (l.filterMap (fun r => r.avg_gpa)).length
      = (l.filter (fun r => r.avg_gpa.isSome)).length := by
  induction l with
  | nil => rfl
  | cons r rs ih =>
    cases h : r.avg_gpa <;>
      simp [List.filterMap_cons, List.filter_cons, h, ih]

/-! ## Lemmas about the `LIKE` model -/

theorem likeMatch_nil (s : List Char) : likeMatch [] s = s.isEmpty := by
  rw [likeMatch.eq_def]

theorem likeMatch_pct (ps s : List Char) :
    likeMatch ('%' :: ps) s
      = (likeMatch ps s ||
          (match s with
           | [] => false
           | _ :: cs => likeMatch ('%' :: ps) cs)) := by
  rw [likeMatch.eq_def]
  simp

theorem likeMatch_char_nil (p : Char) (ps : List Char) (hp : ¬ p = '%') :
    likeMatch (p :: ps) [] = false := by
  rw [likeMatch.eq_def]
  simp [hp]

theorem likeMatch_char_cons (p : Char) (ps : List Char) (c : Char) (cs : List Char)
    (hp : ¬ p = '%') (hp2 : ¬ p = '_') :
    likeMatch (p :: ps) (c :: cs)
      = ((asciiLower p == asciiLower c) && likeMatch ps cs) := by
  rw [likeMatch.eq_def]
  simp [hp, hp2]

/-- A lone `%` matches every string. -/
theorem likeMatch_pct_all (s : List Char) : likeMatch ['%'] s = true := by
  induction s with
  | nil => simp [likeMatch_pct, likeMatch_nil]
  | cons c cs ih => rw [likeMatch_pct]; simp [likeMatch_nil, ih]

/-- A wildcard-free pattern followed by `%` matches exactly the strings whose
lowercasing starts with the lowercased pattern. -/
theorem likeMatch_starts {q : List Char} (hp : '%' ∉ q) (hu : '_' ∉ q) :
    ∀ s, likeMatch (q ++ ['%']) s = true ↔ q.map asciiLower <+: s.map asciiLower := by
  induction q with
  | nil => intro s; simp [likeMatch_pct_all s]
  | cons a as ih =>
    have ha1 : ¬ a = '%' := by intro h; exact hp (by simp [h])
    have ha2 : ¬ a = '_' := by intro h; exact hu (by simp [h])
    have hp' : '%' ∉ as := fun h => hp (List.mem_cons_of_mem _ h)
    have hu' : '_' ∉ as := fun h => hu (List.mem_cons_of_mem _ h)
    intro s
    cases s with
    | nil =>
      rw [List.cons_append, likeMatch_char_nil _ _ ha1]
      simp
    | cons c cs =>
      rw [List.cons_append, likeMatch_char_cons _ _ _ _ ha1 ha2]
      simp only [List.map_cons, List.cons_prefix_cons]
      simp [ih hp' hu' cs]

/-- The pattern `%q%` for wildcard-free `q` matches exactly the strings whose
lowercasing contains the lowercased `q` as a contiguous substring. -/
theorem likeMatch_wrap {q : List Char} (hp : '%' ∉ q) (hu : '_' ∉ q) :
    ∀ s, likeMatch ('%' :: (q ++ ['%'])) s = true ↔ q.map asciiLower <:+: s.map asciiLower := by
  intro s
  induction s with
  | nil =>
    rw [likeMatch_pct]
    simp [likeMatch_starts hp hu []]
  | cons c cs ih =>
    rw [likeMatch_pct]
    simp only [List.map_cons, List.infix_cons_iff]
    simp [likeMatch_starts hp hu (c :: cs), ih]

theorem likeSub_iff_ciContains {q s : String} (hp : '%' ∉ q.data) (hu : '_' ∉ q.data) :
    likeSub q s = true ↔ ciContains q s :=
  likeMatch_wrap hp hu s.data

/-- The empty query's pattern `%%` matches every string. -/
theorem likeSub_empty (s : String) : likeSub "" s = true := by
  show likeMatch ('%' :: ([] ++ ['%'])) s.data = true
  rw [List.nil_append, likeMatch_pct]
  simp [likeMatch_pct_all]

/-! ## Concrete scenario computations and claim theorems -/

theorem dbClassA_eq :
    dbClassA = ⟨[⟨1, "S1", "Alice", "", "A"⟩, ⟨2, "S2", "Bob", "", "A"⟩, ⟨3, "S3", "Cara", "", "A"⟩],
      [⟨1, 1, "T1", 3⟩, ⟨2, 2, "T1", 4⟩], 4, 3⟩ := rfl

theorem search_dbClassA_b :
    search_students_by_class_like dbClassA "A" "b" = [⟨2, "S2", "Bob", "", "A"⟩] := by
  unfold search_students_by_class_like
  have hf : dbClassA.students.filter
      (fun s => s.class_name == "A" &&
        (likeSub (pyStrip "b") s.name || likeSub (pyStrip "b") s.student_id))
      = [⟨2, "S2", "Bob", "", "A"⟩] := by
    rw [show pyStrip "b" = "b" from rfl, dbClassA_eq]
    simp [List.filter_cons, likeSub, likeMatch, asciiLower]
  rw [hf]
  exact sortByName_of_sorted (by simp)

theorem search_dbClassA_S1 :
    search_students_by_class_like dbClassA "A" "S1" = [⟨1, "S1", "Alice", "", "A"⟩] := by
  unfold search_students_by_class_like
  have hf : dbClassA.students.filter
      (fun s => s.class_name == "A" &&
        (likeSub (pyStrip "S1") s.name || likeSub (pyStrip "S1") s.student_id))
      = [⟨1, "S1", "Alice", "", "A"⟩] := by
    rw [show pyStrip "S1" = "S1" from rfl, dbClassA_eq]
    simp [List.filter_cons, likeSub, likeMatch, asciiLower]
  rw [hf]
  exact sortByName_of_sorted (by simp)

theorem search_dbClassA_underscore :
    search_students_by_class_like dbClassA "A" "_"
      = [⟨1, "S1", "Alice", "", "A"⟩, ⟨2, "S2", "Bob", "", "A"⟩, ⟨3, "S3", "Cara", "", "A"⟩] := by
  unfold search_students_by_class_like
  have hf : dbClassA.students.filter
      (fun s => s.class_name == "A" &&
        (likeSub (pyStrip "_") s.name || likeSub (pyStrip "_") s.student_id))
      = [⟨1, "S1", "Alice", "", "A"⟩, ⟨2, "S2", "Bob", "", "A"⟩, ⟨3, "S3", "Cara", "", "A"⟩] := by
    rw [show pyStrip "_" = "_" from rfl, dbClassA_eq]
    simp [List.filter_cons, likeSub, likeMatch, asciiLower]
  rw [hf]
  exact sortByName_of_sorted (by decide)

theorem dbTrend_terms_eq :
    list_terms_for_student dbTrend 1 = [("Fall", 3), ("Spring", Rat.divInt 19 5)] := by
  unfold list_terms_for_student
  rw [show dbTrend.terms.filter (fun t => t.student_id == 1)
      = [⟨1, 1, "Fall", 3⟩, ⟨2, 1, "Spring", Rat.divInt 19 5⟩] from rfl]
  rw [sortByRowId_of_sorted (by decide)]
  rfl

theorem dbTrendRev_terms_eq :
    list_terms_for_student dbTrendRev 1 = [("Spring", Rat.divInt 19 5), ("Fall", 3)] := by
  unfold list_terms_for_student
  rw [show dbTrendRev.terms.filter (fun t => t.student_id == 1)
      = [⟨1, 1, "Spring", Rat.divInt 19 5⟩, ⟨2, 1, "Fall", 3⟩] from rfl]
  rw [sortByRowId_of_sorted (by decide)]
  rfl

/-- C7: when the stored term rows have nondecreasing row ids (as autoincrement
guarantees), `list_terms_for_student` returns the student's terms in creation
order — the stored order, not alphabetical — and the chart plots exactly that
sequence; concretely, terms added as Fall (3.0) then Spring (3.8) are listed
and plotted in that order, and terms added as Spring then Fall stay in that
non-alphabetical order. -/
theorem claim7_insertion_order :
    (∀ (db : DB) (r : Nat), db.terms.Pairwise (fun a b => a.id ≤ b.id) →
      list_terms_for_student db r
        = (db.terms.filter (fun t => t.student_id == r)).map (fun t => (t.term_name, t.gpa))
      ∧ (plot_student db r).series
          = (if db.terms.filter (fun t => t.student_id == r) = [] then none
             else some ((db.terms.filter (fun t => t.student_id == r)).map (fun t => t.gpa))))
    ∧ list_terms_for_student dbTrend 1 = [("Fall", 3), ("Spring", Rat.divInt 19 5)]
    ∧ (plot_student dbTrend 1).series = some [3, Rat.divInt 19 5]
    ∧ (plot_student dbTrend 1).xticklabels = ["Fall", "Spring"]
    ∧ list_terms_for_student dbTrendRev 1 = [("Spring", Rat.divInt 19 5), ("Fall", 3)] := by
  refine ⟨fun db r hsorted => ?_, dbTrend_terms_eq, ?_, ?_, dbTrendRev_terms_eq⟩
  · have hlist : list_terms_for_student db r
        = (db.terms.filter (fun t => t.student_id == r)).map (fun t => (t.term_name, t.gpa)) := by
      unfold list_terms_for_student
      rw [sortByRowId_of_sorted (hsorted.filter _)]
    refine ⟨hlist, ?_⟩
    unfold plot_student
    rw [hlist]
    by_cases hnil : db.terms.filter (fun t => t.student_id == r) = []
    · rw [if_pos hnil, hnil]
      rfl
    · rw [if_neg hnil]
      rw [if_neg (by simpa [List.isEmpty_iff] using hnil)]
      dsimp only
      rw [List.map_map]
      rfl
  · unfold plot_student
    rw [dbTrend_terms_eq]
    rfl
  · unfold plot_student
    rw [dbTrend_terms_eq]
    rfl

theorem dbClassA_stats :
    class_stats dbClassA "A"
      = ([⟨1, "Alice", some 3, 1⟩, ⟨2, "Bob", some 4, 1⟩, ⟨3, "Cara", none, 0⟩],
         ⟨3, 2, some ((7 : ℚ) / 2), some 3, some 4⟩) := by
  unfold class_stats
  rw [show dbClassA.students.filter (fun s => s.class_name == "A")
      = [⟨1, "S1", "Alice", "", "A"⟩, ⟨2, "S2", "Bob", "", "A"⟩, ⟨3, "S3", "Cara", "", "A"⟩]
    from rfl]
  rw [sortByName_of_sorted (by decide)]
  have hAlice : statRowFor dbClassA ⟨1, "S1", "Alice", "", "A"⟩ = ⟨1, "Alice", some 3, 1⟩ := by
    unfold statRowFor termGpas
    rw [show (dbClassA.terms.filter (fun t => t.student_id == 1)).map (fun t => t.gpa)
        = [3] from rfl]
    norm_num
  have hBob : statRowFor dbClassA ⟨2, "S2", "Bob", "", "A"⟩ = ⟨2, "Bob", some 4, 1⟩ := by
    unfold statRowFor termGpas
    rw [show (dbClassA.terms.filter (fun t => t.student_id == 2)).map (fun t => t.gpa)
        = [4] from rfl]
    norm_num
  have hCara : statRowFor dbClassA ⟨3, "S3", "Cara", "", "A"⟩ = ⟨3, "Cara", none, 0⟩ := by
    unfold statRowFor termGpas
    rw [show (dbClassA.terms.filter (fun t => t.student_id == 3)).map (fun t => t.gpa)
        = [] from rfl]
    norm_num
  rw [show List.map (statRowFor dbClassA)
        [⟨1, "S1", "Alice", "", "A"⟩, ⟨2, "S2", "Bob", "", "A"⟩, ⟨3, "S3", "Cara", "", "A"⟩]
      = [statRowFor dbClassA ⟨1, "S1", "Alice", "", "A"⟩,
         statRowFor dbClassA ⟨2, "S2", "Bob", "", "A"⟩,
         statRowFor dbClassA ⟨3, "S3", "Cara", "", "A"⟩] from rfl]
  rw [hAlice, hBob, hCara]
  dsimp only [List.filterMap_cons]
  norm_num [listMin, listMax]

/-- C1: `class_stats` reports, per student of the class, the arithmetic mean
of that student's term GPAs (absent when the student has no terms) and the
term count, and aggregates over the students with at least one term: total
student count (the number of students in the class), count with terms, mean
of the per-student means (their sum divided by their count), and their
minimum and maximum, all absent when no student has a term; the output rows
correspond exactly to the students of the class; on the concrete class with
GPAs 3.0 and 4.0 and one student without terms it reports count_students 3,
count_with_terms 2, avg 3.5, min 3.0, max 4.0. -/
theorem claim1_class_stats :
    (∀ (db : DB) (cl : String),
      ((class_stats db cl).2.count_students = (class_stats db cl).1.length)
      ∧ ((class_stats db cl).2.count_with_terms
          = ((class_stats db cl).1.filter (fun r => r.avg_gpa.isSome)).length)
      ∧ (∀ row ∈ (class_stats db cl).1,
           row.term_count = (termGpas db row.id).length
           ∧ (row.avg_gpa = none ↔ (termGpas db row.id).length = 0)
           ∧ ((termGpas db row.id).length ≠ 0 →
               row.avg_gpa
                 = some ((termGpas db row.id).sum / ((termGpas db row.id).length : ℚ))))
      ∧ (∀ m, (class_stats db cl).2.min_gpa = some m ↔
           m ∈ (class_stats db cl).1.filterMap (fun r => r.avg_gpa)
             ∧ ∀ x ∈ (class_stats db cl).1.filterMap (fun r => r.avg_gpa), m ≤ x)
      ∧ (∀ m, (class_stats db cl).2.max_gpa = some m ↔
           m ∈ (class_stats db cl).1.filterMap (fun r => r.avg_gpa)
             ∧ ∀ x ∈ (class_stats db cl).1.filterMap (fun r => r.avg_gpa), x ≤ m)
      ∧ ((class_stats db cl).2.avg_gpa = none ↔
           (class_stats db cl).1.filterMap (fun r => r.avg_gpa) = [])
      ∧ ((class_stats db cl).2.count_students
          = (db.students.filter (fun s => s.class_name == cl)).length)
      ∧ (∀ row ∈ (class_stats db cl).1, ∃ s ∈ db.students,
           s.class_name = cl ∧ row.id = s.id ∧ row.name = s.name)
      ∧ (∀ s ∈ db.students, s.class_name = cl →
           ∃ row ∈ (class_stats db cl).1, row.id = s.id ∧ row.name = s.name)
      ∧ ((class_stats db cl).1.filterMap (fun r => r.avg_gpa) ≠ [] →
           (class_stats db cl).2.avg_gpa
             = some (((class_stats db cl).1.filterMap (fun r => r.avg_gpa)).sum
                 / (((class_stats db cl).1.filterMap (fun r => r.avg_gpa)).length : ℚ))))
    ∧ class_stats dbClassA "A"
        = ([⟨1, "Alice", some 3, 1⟩, ⟨2, "Bob", some 4, 1⟩, ⟨3, "Cara", none, 0⟩],
           ⟨3, 2, some ((7 : ℚ) / 2), some 3, some 4⟩) := by
  refine ⟨fun db cl => ?_, dbClassA_stats⟩
  have hrows : (class_stats db cl).1
      = (sortByName (db.students.filter (fun s => s.class_name == cl))).map
          (statRowFor db) := rfl
  refine ⟨rfl, length_filterMap_avg _, ?_, fun m => listMin_eq_some_iff,
    fun m => listMax_eq_some_iff, ?_, ?_, ?_, ?_, ?_⟩
  · intro row hrow
    rw [hrows] at hrow
    obtain ⟨s, hs, rfl⟩ := List.mem_map.mp hrow
    unfold statRowFor
    dsimp only
    refine ⟨rfl, ?_, ?_⟩
    · by_cases h : (termGpas db s.id).length = 0 <;> simp [h]
    · intro h
      rw [if_neg h]
  · have havg : (class_stats db cl).2.avg_gpa
        = (if ((class_stats db cl).1.filterMap (fun r => r.avg_gpa)).length = 0 then none
           else some (((class_stats db cl).1.filterMap (fun r => r.avg_gpa)).sum
             / (((class_stats db cl).1.filterMap (fun r => r.avg_gpa)).length : ℚ))) := rfl
    rw [havg]
    by_cases h : (class_stats db cl).1.filterMap (fun r => r.avg_gpa) = []
    · rw [h]
      simp
    · rw [if_neg (by simpa [List.length_eq_zero] using h)]
      constructor
      · intro hc; cases hc
      · intro hc; exact absurd hc h
  · show (class_stats db cl).1.length = _
    rw [hrows, List.length_map]
    exact List.length_mergeSort _
  · intro row hrow
    rw [hrows] at hrow
    obtain ⟨s, hs, rfl⟩ := List.mem_map.mp hrow
    have hs' := List.mem_filter.mp (mem_sortByName.mp hs)
    exact ⟨s, hs'.1, by simpa using hs'.2, rfl, rfl⟩
  · intro s hs hcl
    refine ⟨statRowFor db s, ?_, rfl, rfl⟩
    rw [hrows]
    exact List.mem_map_of_mem _
      (mem_sortByName.mpr (List.mem_filter.mpr ⟨hs, by simpa using hcl⟩))
  · intro h
    have havg : (class_stats db cl).2.avg_gpa
        = (if ((class_stats db cl).1.filterMap (fun r => r.avg_gpa)).length = 0 then none
           else some (((class_stats db cl).1.filterMap (fun r => r.avg_gpa)).sum
             / (((class_stats db cl).1.filterMap (fun r => r.avg_gpa)).length : ℚ))) := rfl
    rw [havg, if_neg (by simpa [List.length_eq_zero] using h)]

/-- C2 counterexample: the input string "nan" parses (`float` returns NaN),
both range comparisons are false, so the validation proceeds to the store
call even though the string does not parse as a real number in [0, 4] — the
claim's "only if" fails at this input. -/
theorem claim2_counterexample :
    ¬ (gpaReachesStore "nan" = true →
        ∃ q : ℚ, pyFloat? (pyStrip "nan") = some (PyFloat.num q) ∧ 0 ≤ q ∧ q ≤ 4) := by
  intro h
  obtain ⟨q, hq, _⟩ := h (by decide)
  rw [show pyFloat? (pyStrip "nan") = some PyFloat.nan from rfl] at hq
  simp at hq

/-- C2 (amended): the Add Term validation proceeds to the store call exactly
when the GPA string parses to NaN (which the range check `gpa < 0.0 or
gpa > 4.0` cannot reject) or to a finite value in [0.0, 4.0]; every other
input — non-numeric, infinite, or finite outside the range — is rejected
before any store call with the database unchanged, and the boundary strings
"0.0" and "4.0" are accepted while "-0.1" and "4.1" are rejected. -/
theorem claim2_gpa_validation :
    (∀ s : String,
      (gpaReachesStore s = true ↔
        pyFloat? (pyStrip s) = some PyFloat.nan ∨
          ∃ q : ℚ, pyFloat? (pyStrip s) = some (PyFloat.num q) ∧ 0 ≤ q ∧ q ≤ 4)
      ∧ (∀ (db : DB) (sel : Option Nat) (tn : String),
          gpaReachesStore s = false → (appAddTerm db sel tn s).1 = db))
    ∧ gpaReachesStore "0.0" = true ∧ gpaReachesStore "4.0" = true
    ∧ gpaReachesStore "-0.1" = false ∧ gpaReachesStore "4.1" = false := by
  refine ⟨fun s => ⟨?_, ?_⟩, by decide, by decide, by decide, by decide⟩
  · unfold gpaReachesStore
    cases hv : pyFloat? (pyStrip s) with
    | none => simp
    | some v =>
      cases v with
      | num q =>
        simp only [pyLt, Bool.not_eq_true', Bool.or_eq_false_iff, decide_eq_false_iff_not,
          Option.some.injEq, Bool.not_eq_false]  -- may need adjusting
        constructor
        · rintro ⟨h1, h2⟩
          exact Or.inr ⟨q, rfl, le_of_not_lt h1, le_of_not_lt h2⟩
        · rintro (h | ⟨q', hq', hq0, hq4⟩)
          · cases h
          · cases hq'
            exact ⟨not_lt.mpr hq0, not_lt.mpr hq4⟩
      | pinf => simp [pyLt]
      | ninf => simp [pyLt]
      | nan => simp [pyLt]
  · intro db sel tn h
    cases sel with
    | none => rfl
    | some r =>
      unfold gpaReachesStore at h
      unfold appAddTerm
      dsimp only
      by_cases h1 : (pyStrip tn).data.isEmpty || (pyStrip s).data.isEmpty
      · rw [if_pos h1]
      · rw [if_neg h1]
        cases hv : pyFloat? (pyStrip s) with
        | none => rfl
        | some v =>
          rw [hv] at h
          dsimp only at h ⊢
          have hrange : (pyLt v (PyFloat.num 0) || pyLt (PyFloat.num 4) v) = true := by
            cases hb : (pyLt v (PyFloat.num 0) || pyLt (PyFloat.num 4) v) with
            | false => rw [hb] at h; simp at h
            | true => rfl
          rw [if_pos hrange]

theorem claim2_witness :
    gpaReachesStore "4.1" = false ∧ (appAddTerm emptyDB (some 1) "T" "4.1").1 = emptyDB :=
  ⟨by decide, (claim2_gpa_validation.1 "4.1").2 emptyDB (some 1) "T" (by decide)⟩

/-- C3: `add_student` fails with DuplicateKey exactly when the stripped
external id is already present (and the dialogue handler leaves the store
unchanged); `add_term_grade` fails with DuplicateKey exactly when the student
exists and the (student, stripped term) pair is already present; after a
successful insert, repeating the same insert fails with DuplicateKey and
exactly one row with that key persists. -/
theorem claim3_duplicates :
    (∀ (db : DB) (sid nm ad cl : String),
      (add_student db sid nm ad cl = .error .duplicateKey ↔
        ∃ s ∈ db.students, s.student_id = pyStrip sid)
      ∧ ((appAddStudent db sid nm ad cl).2 = .duplicateDialog →
          (appAddStudent db sid nm ad cl).1 = db))
    ∧ (∀ (db : DB) (r : Nat) (tn : String) (g : ℚ),
        add_term_grade db r tn g = .error .duplicateKey ↔
          (∃ s ∈ db.students, s.id = r) ∧
            ∃ t ∈ db.terms, t.student_id = r ∧ t.term_name = pyStrip tn)
    ∧ (∀ (db : DB) (r : Nat) (tn : String) (g : ℚ) (db' : DB),
        add_term_grade db r tn g = .ok db' →
          add_term_grade db' r tn g = .error .duplicateKey
          ∧ (db'.terms.filter
              (fun t => t.student_id == r && t.term_name == pyStrip tn)).length = 1
          ∧ db'.students = db.students)
    ∧ (∀ (db : DB) (sid nm ad cl : String) (db' : DB),
        add_student db sid nm ad cl = .ok db' →
          (∀ nm2 ad2 cl2, add_student db' sid nm2 ad2 cl2 = .error .duplicateKey)
          ∧ (db'.students.filter (fun s => s.student_id == pyStrip sid)).length = 1) := by
  refine ⟨fun db sid nm ad cl => ⟨?_, ?_⟩, fun db r tn g => ?_, fun db r tn g db' h => ?_,
    fun db sid nm ad cl db' h => ?_⟩
  · unfold add_student
    by_cases hdup : db.students.any (fun s => s.student_id == pyStrip sid)
    · rw [if_pos hdup]
      simpa [List.any_eq_true] using hdup
    · rw [if_neg hdup]
      simp only [List.any_eq_true, beq_iff_eq] at hdup
      simp [hdup]
  · unfold appAddStudent
    dsimp only
    by_cases h1 : (pyStrip sid).data.isEmpty || (pyStrip nm).data.isEmpty || (pyStrip cl).data.isEmpty
    · rw [if_pos h1]; intro; rfl
    · rw [if_neg h1]
      cases hadd : add_student db (pyStrip sid) (pyStrip nm) (pyStrip ad) (pyStrip cl) with
      | ok d => intro hmsg; cases hmsg
      | error e => intro; rfl
  · unfold add_term_grade
    by_cases hfk : db.students.any (fun s => s.id == r)
    · rw [if_neg (by simp [hfk])]
      by_cases hdup : db.terms.any (fun t => t.student_id == r && t.term_name == pyStrip tn)
      · rw [if_pos hdup]
        simp only [List.any_eq_true, Bool.and_eq_true, beq_iff_eq] at hdup hfk
        simp [hfk, hdup]
      · rw [if_neg hdup]
        simp only [List.any_eq_true, Bool.and_eq_true, beq_iff_eq] at hdup
        simp [hdup]
    · rw [if_pos (by simp [hfk])]
      simp only [List.any_eq_true, beq_iff_eq] at hfk
      simp [hfk]
  · unfold add_term_grade at h ⊢
    by_cases hfk : db.students.any (fun s => s.id == r)
    · rw [if_neg (by simp [hfk])] at h
      by_cases hdup : db.terms.any (fun t => t.student_id == r && t.term_name == pyStrip tn)
      · rw [if_pos hdup] at h; cases h
      · rw [if_neg hdup] at h
        injection h with h'
        subst h'
        dsimp only
        refine ⟨?_, ?_, rfl⟩
        · rw [if_neg (by simp [hfk]), if_pos (by
            rw [List.any_append]
            simp)]
        · rw [List.filter_append]
          have hnil : db.terms.filter
              (fun t => t.student_id == r && t.term_name == pyStrip tn) = [] := by
            rw [List.filter_eq_nil_iff]
            intro t ht hp
            exact hdup (List.any_eq_true.mpr ⟨t, ht, hp⟩)
          rw [hnil]
          simp
    · rw [if_pos (by simp [hfk])] at h; cases h
  · unfold add_student at h ⊢
    by_cases hdup : db.students.any (fun s => s.student_id == pyStrip sid)
    · rw [if_pos hdup] at h; cases h
    · rw [if_neg hdup] at h
      injection h with h'
      subst h'
      dsimp only
      constructor
      · intro nm2 ad2 cl2
        rw [if_pos (by rw [List.any_append]; simp)]
      · rw [List.filter_append]
        have hnil : db.students.filter (fun s => s.student_id == pyStrip sid) = [] := by
          rw [List.filter_eq_nil_iff]
          intro s hs hp
          exact hdup (List.any_eq_true.mpr ⟨s, hs, hp⟩)
        rw [hnil]
        simp

/-- C4: after `delete_student r`, the student is gone (`get_student` is
`none`, and no class listing or search result contains row id `r`), all of
the student's term rows are removed by the cascade (`list_terms_for_student`
returns the empty list), and the term rows of every other student are
unchanged. -/
theorem claim4_delete_cascade (db : DB) (r : Nat) (_hr : (get_student db r).isSome) :
    get_student (delete_student db r) r = none
    ∧ list_terms_for_student (delete_student db r) r = []
    ∧ (∀ cl, ∀ s ∈ list_students_by_class (delete_student db r) cl, s.id ≠ r)
    ∧ (∀ cl q, ∀ s ∈ search_students_by_class_like (delete_student db r) cl q, s.id ≠ r)
    ∧ (∀ x, x ≠ r → list_terms_for_student (delete_student db r) x = list_terms_for_student db x) := by
  refine ⟨?_, ?_, ?_, ?_, ?_⟩
  · unfold get_student delete_student
    rw [List.find?_eq_none]
    intro s hs
    have := (List.mem_filter.mp hs).2
    simpa using this
  · unfold list_terms_for_student delete_student
    have hf : (db.terms.filter (fun t => t.student_id != r)).filter (fun t => t.student_id == r) = [] := by
      rw [List.filter_filter]
      rw [List.filter_eq_nil_iff]
      intro t ht
      by_cases h : t.student_id = r <;> simp [h]
    dsimp only
    rw [hf, sortByRowId_of_sorted List.Pairwise.nil]
    rfl
  · intro cl s hs
    unfold list_students_by_class delete_student at hs
    rw [mem_sortByName, List.mem_filter] at hs
    have := (List.mem_filter.mp hs.1).2
    simpa using this
  · intro cl q s hs
    unfold search_students_by_class_like delete_student at hs
    rw [mem_sortByName, List.mem_filter] at hs
    have := (List.mem_filter.mp hs.1).2
    simpa using this
  · intro x hx
    unfold list_terms_for_student delete_student
    dsimp only
    rw [List.filter_filter]
    congr 2
    apply List.filter_congr
    intro t _
    by_cases h : t.student_id = x
    · have : t.student_id ≠ r := by rw [h]; exact hx
      simp [h, this, hx]
    · simp [h]

/-- C5 counterexample: searching the concrete class for "_" returns Alice,
although "_" is not a case-insensitive substring of "Alice" or "S1" — the
query string is interpolated into the LIKE pattern, so its wildcards are
active and the claim's "exactly the students whose name or id contains q"
fails for q containing LIKE wildcards. -/
theorem claim5_counterexample :
    ¬ (∀ s ∈ search_students_by_class_like dbClassA "A" "_",
        ciContains "_" s.name ∨ ciContains "_" s.student_id) := by
  intro h
  have hmem : (⟨1, "S1", "Alice", "", "A"⟩ : StudentRow)
      ∈ search_students_by_class_like dbClassA "A" "_" := by
    rw [search_dbClassA_underscore]
    exact List.mem_cons_self _ _
  rcases h _ hmem with hc | hc <;> revert hc <;> decide

/-- C5 (amended): for every query whose stripped text contains no LIKE
wildcard (`%` or `_`), the search returns exactly the students of the class
whose name or external id contains the stripped query as a case-insensitive
substring, ordered by name; on the concrete class, searching "b" returns only
Bob and searching "S1" returns only Alice. -/
theorem claim5_search :
    (∀ (db : DB) (cl q : String),
      '%' ∉ (pyStrip q).data → '_' ∉ (pyStrip q).data →
        (∀ s, s ∈ search_students_by_class_like db cl q ↔
            s ∈ db.students ∧ s.class_name = cl ∧
              (ciContains (pyStrip q) s.name ∨ ciContains (pyStrip q) s.student_id))
        ∧ (search_students_by_class_like db cl q).Pairwise
            (fun a b => a.name.data ≤ b.name.data))
    ∧ search_students_by_class_like dbClassA "A" "b" = [⟨2, "S2", "Bob", "", "A"⟩]
    ∧ search_students_by_class_like dbClassA "A" "S1" = [⟨1, "S1", "Alice", "", "A"⟩] := by
  refine ⟨fun db cl q hp hu => ⟨fun s => ?_, ?_⟩, search_dbClassA_b, search_dbClassA_S1⟩
  · unfold search_students_by_class_like
    rw [mem_sortByName, List.mem_filter]
    simp only [Bool.and_eq_true, Bool.or_eq_true, beq_iff_eq]
    rw [likeSub_iff_ciContains hp hu, likeSub_iff_ciContains hp hu]
  · exact sortByName_sorted _

theorem claim5_witness :
    ('%' ∉ (pyStrip "b").data) ∧ ('_' ∉ (pyStrip "b").data) ∧
      ((⟨2, "S2", "Bob", "", "A"⟩ : StudentRow) ∈ search_students_by_class_like dbClassA "A" "b") :=
  ⟨by decide, by decide,
    ((claim5_search.1 dbClassA "A" "b" (by decide) (by decide)).1 _).mpr
      ⟨by decide, by decide, Or.inl (by decide)⟩⟩

/-- C8: searching with the empty query is equivalent to the unfiltered
listing — for every class name and store state, the same students in the same
order. -/
theorem claim8_empty_query (db : DB) (cl : String) :
    search_students_by_class_like db cl "" = list_students_by_class db cl := by
  unfold search_students_by_class_like list_students_by_class
  congr 1
  apply List.filter_congr
  intro s _
  rw [show pyStrip "" = "" from rfl, likeSub_empty, Bool.true_or, Bool.and_true]

/-- C6: deleting a term record that does not exist, and deleting a student
row id that does not exist (in a store satisfying the schema's foreign-key
invariant), are silent no-ops: the entire store state is unchanged and no
error occurs (both operations are total functions). -/
theorem claim6_noop (db : DB) (r : Nat) (tn : String) :
    ((∀ t ∈ db.terms, ¬(t.student_id = r ∧ t.term_name = tn)) → delete_term db r tn = db)
    ∧ (fkInv db → (∀ s ∈ db.students, s.id ≠ r) → delete_student db r = db) := by
  constructor
  · intro h
    unfold delete_term
    have hf : db.terms.filter (fun t => !(t.student_id == r && t.term_name == tn)) = db.terms := by
      rw [List.filter_eq_self]
      intro t ht
      have h' := h t ht
      simp
      tauto
    rw [hf]
  · intro hfk hs
    unfold delete_student
    have h1 : db.students.filter (fun s => s.id != r) = db.students := by
      rw [List.filter_eq_self]
      intro s hsm
      simpa using hs s hsm
    have h2 : db.terms.filter (fun t => t.student_id != r) = db.terms := by
      rw [List.filter_eq_self]
      intro t ht
      obtain ⟨s, hsm, hid⟩ := hfk t ht
      have := hs s hsm
      rw [hid] at this
      simpa using this
    rw [h1, h2]

/-- C9: the chart renderer always sets the title, axis labels and the fixed
[0, 4] vertical range; on an empty term list it draws no series, tick labels
or mean line (and cannot fail, being a total function); on a non-empty list
it plots the GPA values in input order with the term names as tick labels and
draws a horizontal mean line, numerically annotated, at the arithmetic mean
of the plotted values; concretely the mean line of [3.0, 3.8] sits at 3.4. -/
theorem claim9_chart :
    (∀ (db : DB) (r : Nat),
      ((plot_student db r).title = "Term GPA Trend"
        ∧ (plot_student db r).xlabel = "Term"
        ∧ (plot_student db r).ylabel = "GPA"
        ∧ (plot_student db r).ylo = 0 ∧ (plot_student db r).yhi = 4)
      ∧ (list_terms_for_student db r = [] →
          (plot_student db r).series = none ∧ (plot_student db r).meanLine = none
            ∧ (plot_student db r).xticklabels = [])
      ∧ (∀ ts, list_terms_for_student db r = ts → ts ≠ [] →
          (plot_student db r).series = some (ts.map (fun t => t.2))
          ∧ (plot_student db r).xticklabels = ts.map (fun t => t.1)
          ∧ (plot_student db r).meanLine
              = some ((ts.map (fun t => t.2)).sum / ((ts.map (fun t => t.2)).length : ℚ))
          ∧ (plot_student db r).meanText = (plot_student db r).meanLine))
    ∧ (plot_student dbTrend 1).meanLine = some ((17 : ℚ) / 5) := by
  constructor
  · intro db r
    refine ⟨?_, ?_, ?_⟩
    · unfold plot_student
      by_cases hnil : list_terms_for_student db r = []
      · rw [if_pos (by simpa [List.isEmpty_iff] using hnil)]
        exact ⟨rfl, rfl, rfl, rfl, rfl⟩
      · rw [if_neg (by simpa [List.isEmpty_iff] using hnil)]
        exact ⟨rfl, rfl, rfl, rfl, rfl⟩
    · intro hnil
      unfold plot_student
      rw [if_pos (by simpa [List.isEmpty_iff] using hnil)]
      exact ⟨rfl, rfl, rfl⟩
    · intro ts hts hne
      unfold plot_student
      rw [hts, if_neg (by simpa [List.isEmpty_iff] using hne)]
      exact ⟨rfl, rfl, rfl, rfl⟩
  · unfold plot_student
    rw [dbTrend_terms_eq, if_neg (by simp)]
    dsimp only
    congr 1
    have h5 : Rat.divInt 19 5 = (19 : ℚ) / 5 := by
      rw [Rat.divInt_eq_div]
      norm_num
    rw [h5]
    norm_num

/-- C10: `add_student` persists the whitespace-stripped versions of all four
string arguments and `add_term_grade` persists the stripped term name, so
`get_student` and `list_terms_for_student` return the trimmed values even for
untrimmed caller input. -/
theorem claim10_trimmed_storage :
    (∀ (db : DB) (sid nm ad cl : String) (db' : DB),
      add_student db sid nm ad cl = .ok db' →
        db'.students = db.students ++
            [⟨db.nextStudentId, pyStrip sid, pyStrip nm, pyStrip ad, pyStrip cl⟩]
        ∧ ((∀ s ∈ db.students, s.id ≠ db.nextStudentId) →
            get_student db' db.nextStudentId
              = some ⟨db.nextStudentId, pyStrip sid, pyStrip nm, pyStrip ad, pyStrip cl⟩))
    ∧ (∀ (db : DB) (r : Nat) (tn : String) (g : ℚ) (db' : DB),
        add_term_grade db r tn g = .ok db' →
          db'.terms = db.terms ++ [⟨db.nextTermId, r, pyStrip tn, g⟩]
          ∧ (db.terms.Pairwise (fun a b => a.id ≤ b.id) →
              (∀ t ∈ db.terms, t.id ≤ db.nextTermId) →
              list_terms_for_student db' r
                = list_terms_for_student db r ++ [(pyStrip tn, g)])) := by
  constructor
  · intro db sid nm ad cl db' h
    unfold add_student at h
    by_cases hdup : db.students.any (fun s => s.student_id == pyStrip sid)
    · rw [if_pos hdup] at h; cases h
    · rw [if_neg hdup] at h
      injection h with h'
      subst h'
      refine ⟨rfl, fun hid => ?_⟩
      unfold get_student
      dsimp only
      rw [List.find?_append]
      have h1 : db.students.find? (fun s => s.id == db.nextStudentId) = none := by
        rw [List.find?_eq_none]
        intro s hs
        simpa using hid s hs
      rw [h1]
      simp
  · intro db r tn g db' h
    unfold add_term_grade at h
    by_cases hfk : db.students.any (fun s => s.id == r)
    · rw [if_neg (by simp [hfk])] at h
      by_cases hdup : db.terms.any (fun t => t.student_id == r && t.term_name == pyStrip tn)
      · rw [if_pos hdup] at h; cases h
      · rw [if_neg hdup] at h
        injection h with h'
        subst h'
        refine ⟨rfl, fun hsorted hbound => ?_⟩
        unfold list_terms_for_student
        dsimp only
        rw [List.filter_append]
        have hnew : List.filter (fun t => t.student_id == r)
              ([⟨db.nextTermId, r, pyStrip tn, g⟩] : List TermRow)
            = [⟨db.nextTermId, r, pyStrip tn, g⟩] := by simp
        rw [hnew]
        have hsf : (db.terms.filter (fun t => t.student_id == r)).Pairwise
            (fun a b : TermRow => a.id ≤ b.id) := hsorted.filter _
        have happ : ((db.terms.filter (fun t => t.student_id == r))
            ++ ([⟨db.nextTermId, r, pyStrip tn, g⟩] : List TermRow)).Pairwise
            (fun a b : TermRow => a.id ≤ b.id) := by
          rw [List.pairwise_append]
          refine ⟨hsf, List.pairwise_singleton _ _, ?_⟩
          intro a ha b hb
          rw [List.mem_singleton] at hb
          subst hb
          exact hbound a (List.mem_filter.mp ha).1
        rw [sortByRowId_of_sorted happ, sortByRowId_of_sorted hsf, List.map_append]
        rfl
    · rw [if_pos (by simp [hfk])] at h; cases h


/-- Witness for C1: the per-student mean conclusion and the mean-of-means
conclusion instantiated on class "A" of the concrete store, with their
hypotheses discharged. -/
theorem claim1_witness :
    (⟨1, "Alice", some 3, 1⟩ : StatRow).avg_gpa
      = some ((termGpas dbClassA 1).sum / ((termGpas dbClassA 1).length : ℚ))
    ∧ (class_stats dbClassA "A").2.avg_gpa
        = some (((class_stats dbClassA "A").1.filterMap (fun r => r.avg_gpa)).sum
            / (((class_stats dbClassA "A").1.filterMap (fun r => r.avg_gpa)).length : ℚ)) :=
  ⟨((claim1_class_stats.1 dbClassA "A").2.2.1 ⟨1, "Alice", some 3, 1⟩
      (by rw [congrArg Prod.fst claim1_class_stats.2]; exact List.mem_cons_self _ _)).2.2
      (by decide),
   (claim1_class_stats.1 dbClassA "A").2.2.2.2.2.2.2.2.2
      (by rw [congrArg Prod.fst claim1_class_stats.2]; simp)⟩

/-- Witness for C3: the duplicate conclusions instantiated on the concrete
store, with the existence hypotheses discharged. -/
theorem claim3_witness :
    add_student dbClassA "S1" "Zed" "" "A" = Except.error DBErr.duplicateKey
    ∧ add_term_grade dbClassA 3 "T1" 2 = Except.ok dbClassACara
    ∧ add_term_grade dbClassACara 3 "T1" 2 = Except.error DBErr.duplicateKey
    ∧ (dbClassACara.terms.filter
        (fun t => t.student_id == 3 && t.term_name == pyStrip "T1")).length = 1 := by
  have h := claim3_duplicates.2.2.1 dbClassA 3 "T1" 2 dbClassACara rfl
  exact ⟨(claim3_duplicates.1 dbClassA "S1" "Zed" "" "A").1.mpr
      ⟨⟨1, "S1", "Alice", "", "A"⟩, by decide, by decide⟩, rfl, h.1, h.2.1⟩

/-- Witness for C4: cascade deletion instantiated on the concrete store. -/
theorem claim4_witness :
    (get_student dbClassA 1).isSome
    ∧ get_student (delete_student dbClassA 1) 1 = none
    ∧ list_terms_for_student (delete_student dbClassA 1) 1 = []
    ∧ list_terms_for_student (delete_student dbClassA 1) 2
        = list_terms_for_student dbClassA 2 :=
  ⟨by decide, (claim4_delete_cascade dbClassA 1 (by decide)).1,
    (claim4_delete_cascade dbClassA 1 (by decide)).2.1,
    (claim4_delete_cascade dbClassA 1 (by decide)).2.2.2.2 2 (by decide)⟩

/-- Witness for C6: the no-op deletes instantiated on the concrete store with
a non-existent term key and a non-existent student row id. -/
theorem claim6_witness :
    delete_term dbClassA 9 "X" = dbClassA ∧ delete_student dbClassA 9 = dbClassA :=
  ⟨(claim6_noop dbClassA 9 "X").1 (by decide),
    (claim6_noop dbClassA 9 "X").2 (by decide) (by decide)⟩

/-- Witness for C7: the insertion-order conclusion instantiated on the store
whose insertion order disagrees with the alphabetical order. -/
theorem claim7_witness :
    list_terms_for_student dbTrendRev 1
      = (dbTrendRev.terms.filter (fun t => t.student_id == 1)).map
          (fun t => (t.term_name, t.gpa)) :=
  (claim7_insertion_order.1 dbTrendRev 1 (by decide)).1

/-- Witness for C9: the non-empty-input conclusion instantiated on the
concrete trend store. -/
theorem claim9_witness :
    (plot_student dbTrend 1).series
      = some (([("Fall", (3 : ℚ)), ("Spring", Rat.divInt 19 5)]).map (fun t => t.2)) :=
  ((claim9_chart.1 dbTrend 1).2.2 _ dbTrend_terms_eq (by simp)).1

/-- Witness for C10: trimmed persistence instantiated on concrete untrimmed
inputs. -/
theorem claim10_witness :
    get_student dbTrim 1 = some ⟨1, "S1", "Alice", "addr", "A"⟩
    ∧ list_terms_for_student dbTrim2 1 = [("Fall", (3 : ℚ))] := by
  constructor
  · exact (claim10_trimmed_storage.1 emptyDB " S1 " " Alice " " addr " " A " dbTrim rfl).2
      (by decide)
  · have h := (claim10_trimmed_storage.2 dbTrim 1 " Fall " 3 dbTrim2 rfl).2
      (by decide) (by decide)
    rw [h, show list_terms_for_student dbTrim 1 = [] from by
      unfold list_terms_for_student
      rw [show dbTrim.terms.filter (fun t => t.student_id == 1) = [] from rfl,
        sortByRowId_of_sorted List.Pairwise.nil]
      rfl]
    rfl

end StudentSystem
